import Mathlib

/- Verification of the CCM_RecentlyUsedApps carver
   (src/carve_for_ccm_recentlyusedapps.py) against its design specification.

   The input file is modelled as a `List Nat` of bytes (values < 256 on real
   inputs).  Little-endian integer reads, Python slice semantics, Python
   `file.read`, the UTF-16LE decoder with errors='replace', the per-hit record
   dictionary and the regex-based signature scanner are embedded explicitly
   below; each definition is annotated with the source lines it translates. -/

set_option maxRecDepth 100000
set_option maxHeartbeats 2000000

namespace CcmRua

/-- Little-endian unsigned integer read of `n` bytes at `pos` (struct '<' with
the 'Q'/'I'/'H' codes).  Out-of-range positions read 0; callers check the
length bound of the whole fixed-size struct first, exactly as a
`fileobj.read(size)` followed by `struct.unpack` does. -/
def readLE (buf : List Nat) : Nat → Nat → Nat
  | _, 0 => 0
  | pos, n + 1 => buf.getD pos 0 + 256 * readLE buf (pos + 1) n

/-- struct code 'h': reinterpret an unsigned 16-bit value as a two's-complement
signed one. -/
def toI16 (u : Nat) : Int :=
  if u < 32768 then (u : Int) else (u : Int) - 65536

/-- Python slice `l[a:b]` (step 1) over byte strings, with negative-index
wrapping and clamping. -/
def pySliceInt (l : List Nat) (a b : Int) : List Nat :=
  let n : Int := l.length
  let a' : Nat := (if a < 0 then max (n + a) 0 else min a n).toNat
  let b' : Nat := (if b < 0 then max (n + b) 0 else min b n).toNat
  (l.drop a').take (b' - a')

/-- Python `fileobj.read(n)` from position `pos` on the io.BufferedReader the
carver opens with `open(path, 'rb')`: a non-negative count reads at most `n`
bytes, the count -1 reads to end-of-file, and every count below -1 raises
`ValueError: read length must be non-negative or -1` — modelled as `none`. -/
def fileRead (buf : List Nat) (pos : Nat) (n : Int) : Option (List Nat) :=
  if n < -1 then none
  else if n = -1 then some (buf.drop pos)
  else some ((buf.drop pos).take n.toNat)

/-- Python `rstrip` of zero values: `b.rstrip(b'\x00')` on bytes and
`s.rstrip('\x00')` on text, both used by the string decoder. -/
def rstripZeros (l : List Nat) : List Nat :=
  (l.reverse.dropWhile (· = 0)).reverse

/-- UTF-16LE code units of a byte list; a dangling final byte decodes to the
U+FFFD replacement character, as CPython's utf-16-le codec does with
errors='replace'. -/
def utf16leUnits : List Nat → List Nat
  | [] => []
  | [_] => [0xFFFD]
  | lo :: hi :: rest => (lo + 256 * hi) :: utf16leUnits rest

/-- Surrogate-pair combination with errors='replace': a high surrogate followed
by a low one yields the astral code point, an unpaired surrogate yields
U+FFFD.  Structural recursion on a fuel count (one unit per emitted code
point) so that the kernel can evaluate it; `combineSurrogates` supplies
enough fuel. -/
def combineSurrogatesFuel : Nat → List Nat → List Nat
  | 0, _ => []
  | _ + 1, [] => []
  | fuel + 1, u :: rest =>
    if 0xD800 ≤ u ∧ u ≤ 0xDBFF then
      match rest with
      | v :: rest2 =>
        if 0xDC00 ≤ v ∧ v ≤ 0xDFFF then
          (0x10000 + (u - 0xD800) * 0x400 + (v - 0xDC00)) :: combineSurrogatesFuel fuel rest2
        else 0xFFFD :: combineSurrogatesFuel fuel rest
      | [] => [0xFFFD]
    else if 0xDC00 ≤ u ∧ u ≤ 0xDFFF then 0xFFFD :: combineSurrogatesFuel fuel rest
    else u :: combineSurrogatesFuel fuel rest

/-- Surrogate-pair combination of a whole code-unit list. -/
def combineSurrogates (l : List Nat) : List Nat :=
  combineSurrogatesFuel l.length l

/-- `bytes.decode('utf-16le', errors='replace')`, as a list of code points. -/
def decodeUtf16le (b : List Nat) : List Nat :=
  combineSurrogates (utf16leUnits b)

/-- Build a string from code points. -/
def strOfCodes (l : List Nat) : String :=
  String.mk (l.map Char.ofNat)

/-- Round-half-even division of a tick count by 10, i.e.
`int((Decimal(ticks * 1e6) / Decimal(1e7)).quantize(1, ROUND_HALF_EVEN))` of
parse_timestamp (source lines 32-49) at the Windows resolution of 1e7 ticks
per second.  For tick counts below 2^64 the Decimal arithmetic in the source
is exact (fewer than 28 significant digits), so the quantize is exactly this
integer rounding. -/
def quantizeHalfEvenDiv10 (ticks : Nat) : Nat :=
  let q := ticks / 10
  let r := ticks % 10
  if r < 5 then q
  else if 5 < r then q + 1
  else if q % 2 = 0 then q else q + 1

/-- Largest count of microseconds after the epoch 1601-01-01 that
`datetime(1601,1,1) + timedelta(microseconds=us)` can still represent: the
span from 1601-01-01 00:00:00 to 9999-12-31 23:59:59.999999, which is 3067670
days plus 86399999999 microseconds (proleptic Gregorian ordinals 3652059 and
584389).  One more microsecond raises OverflowError. -/
def usMax : Nat := 3067670 * 86400000000 + 86399999999

/-- datetime_from_windows_filetime (source lines 61-67), the resulting
`datetime` represented by its count of microseconds since 1601-01-01.  A tick
count of 0 returns `none` directly; an overflowing conversion raises inside
parse_windows_timestamp and the handler returns `none`. -/
def datetime_from_windows_filetime (count : Nat) : Option Nat :=
  if count = 0 then none
  else
    let us := quantizeHalfEvenDiv10 count
    if usMax < us then none else some us

/-- Value of one entry of the per-hit record dictionary. -/
inductive Value where
  | vNat (n : Nat)
  | vStr (s : String)
  | vTime (us : Nat)
  | vNone
deriving DecidableEq, Repr

/-- The record built for one signature hit: a Python dict, i.e. keys to values
in insertion order. -/
abbrev Record := List (String × Value)

/-- Dict lookup. -/
def getk (r : Record) (k : String) : Option Value :=
  match r with
  | [] => none
  | (k', v) :: rest => if k' = k then some v else getk rest k

/-- Dict assignment `r[k] = v`: replaces in place, or appends a new key. -/
def setk (r : Record) (k : String) (v : Value) : Record :=
  match r with
  | [] => [(k, v)]
  | (k', v') :: rest => if k' = k then (k', v) :: rest else (k', v') :: setk rest k v

/-- Dict `r.pop(k)`. -/
def popk (r : Record) (k : String) : Record :=
  match r with
  | [] => []
  | (k', v') :: rest => if k' = k then rest else (k', v') :: popk rest k

/-- Console diagnostics printed by the carver, carrying the arguments of the
corresponding print calls (source lines 269, 236, 273 and 221). -/
inductive Diag where
  | headerFail (offset : Nat) (fp : String)
  | offsetsFail (offset : Nat) (fp : String)
  | oversize (recordSize maxSize offset : Nat) (fp : String)
  | badFlag (flag : List Nat) (fileOffset : Nat) (fp : String)
deriving DecidableEq, Repr

/-- 'utf-16le' encoding of a string of BMP characters: low byte then high byte
of each code point. -/
def utf16le (s : String) : List Nat :=
  s.data.foldr (fun c acc => c.toNat % 256 :: c.toNat / 256 :: acc) []

/-- The 64-hex-character Vista-era class hash (source line 294, the part of
the search pattern left of the '|'). -/
def vistaHash : String :=
  "7C261551B264D35E30A7FA29C75283DAE04BBA71DBE8F5E553F7AD381B406DD8"

/-- The 32-hex-character XP-era class hash (source line 294, right of the
'|'). -/
def xpHash : String := "6FA62F462BEF740F820D72D9250D743C"

/-- Bytes of the left regex alternative: the UTF-16LE Vista hash, 128 bytes. -/
def vistaSig : List Nat := utf16le vistaHash

/-- Bytes of the right regex alternative.  The pattern is built by UTF-16LE
encoding the whole string 'VISTAHASH|XPHASH' (source line 294), so the zero
byte that encodes the high half of the '|' character lands inside the right
alternative: it is one 0x00 byte followed by the 64 UTF-16LE bytes of the XP
hash, 65 bytes in total. -/
def xpAltSig : List Nat := 0 :: utf16le xpHash

/-- RECENTLY_USED_APPS_TYPES (source lines 85-88); `none` models the KeyError
raised by `RECENTLY_USED_APPS_TYPES[match_len]` on any other length. -/
def RECENTLY_USED_APPS_TYPES (matchLen : Nat) : Option String :=
  if matchLen = 128 then some "Vista"
  else if matchLen = 64 then some "XP"
  else none

/-- Fields of RUA_RECORD_HEADER (source lines 92-99): '<Q Q I 4x 1x 5x',
30 bytes in total. -/
structure RuaHeader where
  last_updated : Nat
  last_joined_sccm : Nat
  record_size : Nat
deriving DecidableEq, Repr

/-- RUA_RECORD_HEADER.parse_as_dict of the next 30 bytes (used at source line
267); `none` is the struct.error raised when fewer than 30 bytes remain. -/
def parseRuaHeader (buf : List Nat) (pos : Nat) : Option RuaHeader :=
  if pos + 30 ≤ buf.length then
    some { last_updated := readLE buf pos 8
           last_joined_sccm := readLE buf (pos + 8) 8
           record_size := readLE buf (pos + 16) 4 }
  else none

/-- Fields of RUA_PROPERTY_OFFSETS_VALUES (source lines 102-127): twenty '<I'
values followed by '4x 1x h 2x', 89 bytes in total. -/
structure OffsetsTable where
  folder_path : Nat
  explorer_filename : Nat
  last_username : Nat
  original_filename : Nat
  file_version : Nat
  file_size : Nat
  product_name : Nat
  product_version : Nat
  company_name : Nat
  product_language : Nat
  file_description : Nat
  launch_count : Nat
  last_used_time : Nat
  product_code : Nat
  additional_product_codes : Nat
  msi_display_name : Nat
  msi_publisher : Nat
  msi_version : Nat
  software_properties_hash : Nat
  file_properties_hash : Nat
  properties_size : Int
deriving DecidableEq, Repr

/-- The names of the 'I'-coded fields of RUA_PROPERTY_OFFSETS_VALUES, in
struct order (source lines 103-122). -/
def ruaOffsetsFieldNames : List String :=
  ["folder_path", "explorer_filename", "last_username", "original_filename",
   "file_version", "file_size", "product_name", "product_version",
   "company_name", "product_language", "file_description", "launch_count",
   "last_used_time", "product_code", "additional_product_codes",
   "msi_display_name", "msi_publisher", "msi_version",
   "software_properties_hash", "file_properties_hash"]

/-- RUA_PROPERTY_VALUE_FIELDS (source lines 130-134): the inline scalar
fields popped out of the offset dict by get_prop_offsets. -/
def RUA_PROPERTY_VALUE_FIELDS : List String :=
  ["file_size", "launch_count", "product_language"]

/-- RUA_RECORD_STRINGS (source lines 137-155): the string-valued property
fields. -/
def RUA_RECORD_STRINGS : List String :=
  ["additional_product_codes", "company_name", "explorer_filename",
   "file_description", "file_properties_hash", "file_version", "folder_path",
   "last_used_time", "last_username", "msi_display_name", "msi_publisher",
   "msi_version", "original_filename", "product_code", "product_name",
   "product_version", "software_properties_hash"]

/-- RUA_MAX_RECORD_SIZE (source line 173). -/
def RUA_MAX_RECORD_SIZE : Nat := 65536

/-- RUA_PROPERTY_OFFSETS_VALUES.parse_as_dict of the next 89 bytes (the read
in get_prop_offsets, source lines 231-241); `none` is the struct.error on
truncation. -/
def parseRuaOffsets (buf : List Nat) (pos : Nat) : Option OffsetsTable :=
  if pos + 89 ≤ buf.length then
    some { folder_path := readLE buf pos 4
           explorer_filename := readLE buf (pos + 4) 4
           last_username := readLE buf (pos + 8) 4
           original_filename := readLE buf (pos + 12) 4
           file_version := readLE buf (pos + 16) 4
           file_size := readLE buf (pos + 20) 4
           product_name := readLE buf (pos + 24) 4
           product_version := readLE buf (pos + 28) 4
           company_name := readLE buf (pos + 32) 4
           product_language := readLE buf (pos + 36) 4
           file_description := readLE buf (pos + 40) 4
           launch_count := readLE buf (pos + 44) 4
           last_used_time := readLE buf (pos + 48) 4
           product_code := readLE buf (pos + 52) 4
           additional_product_codes := readLE buf (pos + 56) 4
           msi_display_name := readLE buf (pos + 60) 4
           msi_publisher := readLE buf (pos + 64) 4
           msi_version := readLE buf (pos + 68) 4
           software_properties_hash := readLE buf (pos + 72) 4
           file_properties_hash := readLE buf (pos + 76) 4
           properties_size := toI16 (readLE buf (pos + 85) 2) }
  else none

/-- The (field name, offset) pairs that remain once get_prop_offsets pops the
three value fields (source line 240) and process_hit pops properties_size
(source line 279): dict insertion order, i.e. struct order minus the popped
keys. -/
def stringOffsetPairs (t : OffsetsTable) : List (String × Nat) :=
  [("folder_path", t.folder_path),
   ("explorer_filename", t.explorer_filename),
   ("last_username", t.last_username),
   ("original_filename", t.original_filename),
   ("file_version", t.file_version),
   ("product_name", t.product_name),
   ("product_version", t.product_version),
   ("company_name", t.company_name),
   ("file_description", t.file_description),
   ("last_used_time", t.last_used_time),
   ("product_code", t.product_code),
   ("additional_product_codes", t.additional_product_codes),
   ("msi_display_name", t.msi_display_name),
   ("msi_publisher", t.msi_publisher),
   ("msi_version", t.msi_version),
   ("software_properties_hash", t.software_properties_hash),
   ("file_properties_hash", t.file_properties_hash)]

/-- `sorted(offsets.items(), key=lambda kv: kv[1])` (source line 283).
Python's sort is stable; insertion sort with a not-strictly-greater test is
the same stable sort. -/
def sortedOffsetPairs (t : OffsetsTable) : List (String × Nat) :=
  List.insertionSort (fun a b => a.2 ≤ b.2) (stringOffsetPairs t)

/-- Offset values of the sorted string fields. -/
def sortedStringOffsets (t : OffsetsTable) : List Nat :=
  (sortedOffsetPairs t).map (·.2)

/-- Field byte ranges from the sorted pairs: each field ends where the next
begins, the last ends at properties_size (source lines 285-286). -/
def mkRanges (ps : Int) : List (String × Nat) → List (String × Nat × Int)
  | [] => []
  | [(n, o)] => [(n, o, ps)]
  | (n, o) :: (m, o2) :: rest => (n, o, (o2 : Int)) :: mkRanges ps ((m, o2) :: rest)

/-- The decoded field ranges of one record. -/
def fieldRanges (t : OffsetsTable) : List (String × Nat × Int) :=
  mkRanges t.properties_size (sortedOffsetPairs t)

/-- decode_cim_encoded_string (source lines 176-191).  Both decode branches
are total — utf-16le with errors='replace' cannot fail and chr of a byte
value cannot fail — so the failure print at source line 189 is unreachable
and the result is always a string.  The `offset` parameter is the function's
second positional argument (always 0 at its call site). -/
def decode_cim_encoded_string (buf : List Nat) (offset : Nat) (uncompressed : Bool) : String :=
  if uncompressed then strOfCodes (rstripZeros (decodeUtf16le buf))
  else
    let b := rstripZeros buf
    strOfCodes (((List.range b.length).drop offset).map (fun i => b.getD i 0))

/-- read_cim_encoded_string (source lines 194-228): the decoded value (None
modelled as `none`) together with the optional bad-flag diagnostic printed at
source line 221. -/
def read_cim_encoded_string (buf : List Nat) (start : Nat) (endIdx : Int)
    (fullpath : String) (fileOffset : Nat) : Option String × Option Diag :=
  if endIdx - (start : Int) = 2 then (none, none)
  else if buf.length < start then (none, none)
  else
    let uncompressedRaw := pySliceInt buf (start : Int) ((start : Int) + 1)
    if uncompressedRaw ≠ [0] ∧ uncompressedRaw ≠ [1] then
      (none, some (Diag.badFlag uncompressedRaw fileOffset fullpath))
    else
      let uncompressed := uncompressedRaw = [1]
      let nextByte := pySliceInt buf ((start : Int) + 1) ((start : Int) + 2)
      if nextByte = [] then (none, none)
      else
        (some (decode_cim_encoded_string (pySliceInt buf ((start : Int) + 1) endIdx) 0 uncompressed),
         none)

/-- Test `folder_path.endswith('\\')` (source line 249). -/
def endsWithBackslash (s : String) : Bool :=
  s.data.getLast? = some '\\'

/-- The full_path expression of parse_fields (source line 249):
`''.join([folder_path, '' if folder_path.endswith('\\') else '\\', file_name])
or None`. -/
def mkFullPath (folder_path file_name : String) : Option String :=
  let s := folder_path ++ (if endsWithBackslash folder_path then "" else "\\") ++ file_name
  if s = "" then none else some s

/-- `str.rfind`-style index of the last occurrence of `c`, -1 when absent. -/
def rfindIdx (l : List Char) (c : Char) : Int :=
  match l.reverse.findIdx? (· = c) with
  | some j => (l.length : Int) - 1 - j
  | none => -1

/-- `os.path.splitext(p)[1]` (posixpath, extsep '.', sep '/'): the extension
including its dot, or '' when the basename holds no dot that is preceded by a
non-dot basename character. -/
def splitextExt (p : String) : String :=
  let l := p.data
  let sepIndex := rfindIdx l '/'
  let dotIndex := rfindIdx l '.'
  if sepIndex < dotIndex ∧
      (List.range l.length).any (fun i =>
        decide (sepIndex < (i : Int) ∧ (i : Int) < dotIndex) && (l.getD i '.' != '.')) then
    String.mk (l.drop dotIndex.toNat)
  else ""

/-- The file_extension expression of parse_fields (source line 250):
`os.path.splitext(file_name)[1].replace('.', '').lower() or None`. -/
def mkFileExtension (file_name : String) : Option String :=
  let ext := String.mk (((splitextExt file_name).data.filter (fun c => c != '.')).map Char.toLower)
  if ext = "" then none else some ext

/-- Missing keys and null values both read back as '' through
`record.get(k, '') or ''` (source lines 247-248). -/
def strOrEmpty (v : Option Value) : String :=
  match v with
  | some (Value.vStr s) => s
  | _ => ""

/-- parse_fields (source lines 244-251) over the record dict. -/
def parse_fields (record : Record) : Record :=
  let tsOf : Option Value → Value := fun v =>
    match v with
    | some (Value.vNat t) =>
      match datetime_from_windows_filetime t with
      | some us => Value.vTime us
      | none => Value.vNone
    | _ => Value.vNone
  let r1 := setk record "last_updated" (tsOf (getk record "last_updated"))
  let r2 := setk r1 "last_joined_sccm" (tsOf (getk r1 "last_joined_sccm"))
  let folder_path := strOrEmpty (getk r2 "folder_path")
  let file_name := strOrEmpty (getk r2 "explorer_filename")
  let r3 := setk r2 "full_path" (match mkFullPath folder_path file_name with
    | some s => Value.vStr s
    | none => Value.vNone)
  setk r3 "file_extension" (match mkFileExtension file_name with
    | some s => Value.vStr s
    | none => Value.vNone)

/-- The decode loop over the sorted field ranges (source lines 285-287),
collecting the per-field diagnostics in order. -/
def decodeFields (blob : List Nat) (fullpath : String) (fileOffset : Nat) :
    List (String × Nat × Int) → Record → Record × List Diag
  | [], r => (r, [])
  | (name, start, endIdx) :: rest, r =>
    let vd := read_cim_encoded_string blob start endIdx fullpath fileOffset
    let r' := setk r name (match vd.1 with
      | some s => Value.vStr s
      | none => Value.vNone)
    let out := decodeFields blob fullpath fileOffset rest r'
    (out.1, (match vd.2 with | some dg => [dg] | none => []) ++ out.2)

/-- process_hit (source lines 254-290) for one regex match.  `none` models an
uncaught exception aborting the generator: the KeyError raised at source
line 262 when the match length is not a key of RECENTLY_USED_APPS_TYPES, and
the ValueError raised by the blob read at source line 281 when
`min(properties_size, 65536)` is below -1.  (On the ValueError path the
oversize warning, if any, has already reached the console before the crash,
but the record stream ends; no theorem below asserts anything about
diagnostics on that path.) -/
def process_hit (buf : List Nat) (hashStart matchLen : Nat) (fullpath : String) :
    Option (Record × List Diag) :=
  match RECENTLY_USED_APPS_TYPES matchLen with
  | none => none
  | some rt =>
    let hashEnd := hashStart + matchLen
    let record : Record :=
      [("input_file_path", Value.vStr fullpath),
       ("offset", Value.vNat hashStart),
       ("record_type", Value.vStr rt)]
    match parseRuaHeader buf hashEnd with
    | none => some (record, [Diag.headerFail hashStart fullpath])
    | some hdr =>
      let record := setk record "last_updated" (Value.vNat hdr.last_updated)
      let record := setk record "last_joined_sccm" (Value.vNat hdr.last_joined_sccm)
      let record := setk record "record_size" (Value.vNat hdr.record_size)
      let record := popk record "record_size"
      let warnDiags :=
        if RUA_MAX_RECORD_SIZE < hdr.record_size then
          [Diag.oversize hdr.record_size RUA_MAX_RECORD_SIZE hashStart fullpath]
        else []
      match parseRuaOffsets buf (hashEnd + 30) with
      | none => some (record, warnDiags ++ [Diag.offsetsFail hashStart fullpath])
      | some tbl =>
        let record := setk record "file_size" (Value.vNat tbl.file_size)
        let record := setk record "launch_count" (Value.vNat tbl.launch_count)
        let record := setk record "product_language" (Value.vNat tbl.product_language)
        match fileRead buf (hashEnd + 119)
            (min tbl.properties_size ((RUA_MAX_RECORD_SIZE : Nat) : Int)) with
        | none => none
        | some blob =>
          let out := decodeFields blob fullpath hashStart (fieldRanges tbl) record
          some (parse_fields out.1, warnDiags ++ out.2)

/-- Whether the byte literal `sig` occurs at position `pos` of the buffer. -/
def sigAt (buf : List Nat) (pos : Nat) (sig : List Nat) : Bool :=
  (buf.drop pos).take sig.length = sig

/-- Matches `(start, length)` of the regex `vistaSig|xpAltSig` from position
`pos`: ascending, non-overlapping, left alternative preferred —
`re.finditer` semantics for an alternation of two literals (source line
296).  Structural recursion on a fuel count (the scan position advances by at
least one per step) so that the kernel can evaluate it; `findMatches`
supplies enough fuel. -/
def findMatchesFuel (buf : List Nat) : Nat → Nat → List (Nat × Nat)
  | 0, _ => []
  | fuel + 1, pos =>
    if buf.length ≤ pos then []
    else if sigAt buf pos vistaSig then (pos, 128) :: findMatchesFuel buf fuel (pos + 128)
    else if sigAt buf pos xpAltSig then (pos, 65) :: findMatchesFuel buf fuel (pos + 65)
    else findMatchesFuel buf fuel (pos + 1)

/-- All pattern matches of the buffer. -/
def findMatches (buf : List Nat) : List (Nat × Nat) :=
  findMatchesFuel buf (buf.length + 1) 0

/-- The stream produced by the parse generator (source lines 293-297) over a
given match list: records in match order plus all diagnostics; the Bool is
true when a KeyError aborted the generator (records already yielded are
kept). -/
def runHits (buf : List Nat) (fullpath : String) :
    List (Nat × Nat) → List Record × List Diag × Bool
  | [] => ([], [], false)
  | (s, l) :: rest =>
    match process_hit buf s l fullpath with
    | none => ([], [], true)
    | some (r, ds) =>
      let out := runHits buf fullpath rest
      (r :: out.1, ds ++ out.2.1, out.2.2)

/-- parse (source lines 293-297): scan the whole buffer and process every
hit. -/
def runParse (buf : List Nat) (fullpath : String) : List Record × List Diag × Bool :=
  runHits buf fullpath (findMatches buf)

/-- Little-endian serialization of a 32-bit value, for building test
vectors. -/
def le32 (n : Nat) : List Nat := [n % 256, n / 256 % 256, n / 65536 % 256, n / 16777216 % 256]

/-- Little-endian serialization of a 16-bit value. -/
def le16 (n : Nat) : List Nat := [n % 256, n / 256 % 256]

/-- Byte values of an ASCII string. -/
def asciiBytes (s : String) : List Nat := s.data.map (·.toNat)

/-- A well-formed record body: header with zero tick counts and record_size
100, the seventeen string fields at offsets 0,3,...,48 (the three inline
values are 7, 9 and 11), properties_size 51, and a blob of seventeen
compressed one-character strings 'a'. -/
def goodTail : List Nat :=
  List.replicate 16 0 ++ le32 100 ++ List.replicate 10 0 ++
  ([0, 3, 6, 9, 12, 7, 15, 18, 21, 9, 24, 11, 27, 30, 33, 36, 39, 42, 45, 48].map le32).flatten ++
  List.replicate 5 0 ++ le16 51 ++ List.replicate 2 0 ++
  (List.replicate 17 [0, 97, 0]).flatten

/-- A buffer holding one complete well-formed Vista-signature record. -/
def goodRecBytes : List Nat := vistaSig ++ goodTail

/-- The offset table decoded from `goodRecBytes`. -/
def goodTable : OffsetsTable :=
  { folder_path := 0, explorer_filename := 3, last_username := 6,
    original_filename := 9, file_version := 12, file_size := 7,
    product_name := 15, product_version := 18, company_name := 21,
    product_language := 9, file_description := 24, launch_count := 11,
    last_used_time := 27, product_code := 30, additional_product_codes := 33,
    msi_display_name := 36, msi_publisher := 39, msi_version := 42,
    software_properties_hash := 45, file_properties_hash := 48,
    properties_size := 51 }

/-- The record the carver outputs for `goodRecBytes` at hit offset `off`. -/
def expectedGoodRecord (off : Nat) : Record :=
  [("input_file_path", Value.vStr "f"), ("offset", Value.vNat off),
   ("record_type", Value.vStr "Vista"),
   ("last_updated", Value.vNone), ("last_joined_sccm", Value.vNone),
   ("file_size", Value.vNat 7), ("launch_count", Value.vNat 11),
   ("product_language", Value.vNat 9),
   ("folder_path", Value.vStr "a"), ("explorer_filename", Value.vStr "a"),
   ("last_username", Value.vStr "a"), ("original_filename", Value.vStr "a"),
   ("file_version", Value.vStr "a"), ("product_name", Value.vStr "a"),
   ("product_version", Value.vStr "a"), ("company_name", Value.vStr "a"),
   ("file_description", Value.vStr "a"), ("last_used_time", Value.vStr "a"),
   ("product_code", Value.vStr "a"), ("additional_product_codes", Value.vStr "a"),
   ("msi_display_name", Value.vStr "a"), ("msi_publisher", Value.vStr "a"),
   ("msi_version", Value.vStr "a"), ("software_properties_hash", Value.vStr "a"),
   ("file_properties_hash", Value.vStr "a"),
   ("full_path", Value.vStr "a\\a"), ("file_extension", Value.vNone)]

/-- A record body truncated right after its 30 header bytes: only 10 bytes
follow, so the 89-byte offset table cannot be read. -/
def truncTail : List Nat := List.replicate 30 0 ++ List.replicate 10 0

/-- A buffer holding a complete record followed by a record whose offset
table is truncated at end-of-buffer. -/
def c2Buf : List Nat := goodRecBytes ++ vistaSig ++ truncTail

/-- The partial record emitted for a hit at `off` whose offset table is
truncated: identity fields plus the raw (unconverted) header tick counts,
and no string field at all. -/
def expectedTruncRecord (off : Nat) : Record :=
  [("input_file_path", Value.vStr "f"), ("offset", Value.vNat off),
   ("record_type", Value.vStr "Vista"),
   ("last_updated", Value.vNat 0), ("last_joined_sccm", Value.vNat 0)]

/-- A record body like `goodTail` but with folder_path and explorer_filename
sharing offset 0 (properties_size 48, sixteen 3-byte string payloads): the
carver still decodes it, with two equal entries in the sorted offsets. -/
def c6Tail : List Nat :=
  List.replicate 16 0 ++ le32 100 ++ List.replicate 10 0 ++
  ([0, 0, 3, 6, 9, 7, 12, 15, 18, 9, 21, 11, 24, 27, 30, 33, 36, 39, 42, 45].map le32).flatten ++
  List.replicate 5 0 ++ le16 48 ++ List.replicate 2 0 ++
  (List.replicate 16 [0, 97, 0]).flatten

/-- Buffer with one decoded record whose sorted string offsets hold a
duplicate. -/
def c6Buf : List Nat := vistaSig ++ c6Tail

/-- A record body like `goodTail` but with record_size 65537, one unit above
the safety maximum. -/
def c9Tail : List Nat :=
  List.replicate 16 0 ++ le32 65537 ++ List.replicate 10 0 ++
  ([0, 3, 6, 9, 12, 7, 15, 18, 21, 9, 24, 11, 27, 30, 33, 36, 39, 42, 45, 48].map le32).flatten ++
  List.replicate 5 0 ++ le16 51 ++ List.replicate 2 0 ++
  (List.replicate 17 [0, 97, 0]).flatten

/-- Buffer with one record whose declared record_size exceeds the maximum. -/
def c9Buf : List Nat := vistaSig ++ c9Tail

/-- The header decoded from `c9Buf`. -/
def c9Header : RuaHeader :=
  { last_updated := 0, last_joined_sccm := 0, record_size := 65537 }

/-- An 89-byte offset table whose properties_size bytes are 0x00 0xFF,
decoding to the negative signed value -256. -/
def c10Buf : List Nat := List.replicate 85 0 ++ [0, 255] ++ List.replicate 2 0

/-- The offset table decoded from `c10Buf` (all offsets zero,
properties_size -256). -/
def c10Table : OffsetsTable :=
  { folder_path := 0, explorer_filename := 0, last_username := 0,
    original_filename := 0, file_version := 0, file_size := 0,
    product_name := 0, product_version := 0, company_name := 0,
    product_language := 0, file_description := 0, launch_count := 0,
    last_used_time := 0, product_code := 0, additional_product_codes := 0,
    msi_display_name := 0, msi_publisher := 0, msi_version := 0,
    software_properties_hash := 0, file_properties_hash := 0,
    properties_size := -256 }

/-- A record body with an oversized record_size 65537 AND properties_size
-256 (bytes 0x00 0xFF): the blob read length is -256, so the read raises
ValueError and the record is aborted mid-decode. -/
def c9CrashTail : List Nat :=
  List.replicate 16 0 ++ le32 65537 ++ List.replicate 10 0 ++
  ([0, 3, 6, 9, 12, 7, 15, 18, 21, 9, 24, 11, 27, 30, 33, 36, 39, 42, 45, 48].map le32).flatten ++
  List.replicate 5 0 ++ [0, 255] ++ List.replicate 2 0

/-- Buffer with one oversized record whose blob read raises ValueError. -/
def c9CrashBuf : List Nat := vistaSig ++ c9CrashTail

/-- An 89-byte offset table whose properties_size bytes are 0xFF 0xFF,
decoding to -1: the only negative read length that does NOT raise, reading
to end-of-file instead. -/
def c10NegOneBuf : List Nat := List.replicate 85 0 ++ [255, 255] ++ List.replicate 2 0

/-- The offset table decoded from `c10NegOneBuf` (all offsets zero,
properties_size -1). -/
def c10NegOneTable : OffsetsTable :=
  { folder_path := 0, explorer_filename := 0, last_username := 0,
    original_filename := 0, file_version := 0, file_size := 0,
    product_name := 0, product_version := 0, company_name := 0,
    product_language := 0, file_description := 0, launch_count := 0,
    last_used_time := 0, product_code := 0, additional_product_codes := 0,
    msi_display_name := 0, msi_publisher := 0, msi_version := 0,
    software_properties_hash := 0, file_properties_hash := 0,
    properties_size := -1 }

/-- The folder path of the end-to-end example record. -/
def flashFolder : String := "C:\\Windows\\SysWOW64\\Macromed\\Flash\\"

/-- The executable name of the end-to-end example record. -/
def flashName : String := "FlashUtil32_29_0_0_140_Plugin.exe"

/-- Record body for the end-to-end example: folder_path and
explorer_filename hold the Flash installer path parts (compressed
single-byte encoding), the fifteen other string fields are two-byte
flag+terminator ranges (decoding to null), and the inline values are
file_size 1366528, product_language 1033, launch_count 64. -/
def flashTail : List Nat :=
  List.replicate 16 0 ++ le32 100 ++ List.replicate 10 0 ++
  ([0, 37, 72, 74, 76, 1366528, 78, 80, 82, 1033, 84, 64, 86, 88, 90,
    92, 94, 96, 98, 100].map le32).flatten ++
  List.replicate 5 0 ++ le16 102 ++ List.replicate 2 0 ++
  ([0] ++ asciiBytes flashFolder ++ [0]) ++
  ([0] ++ asciiBytes flashName ++ [0]) ++
  (List.replicate 15 [0, 0]).flatten

/-- Buffer with the end-to-end Flash example record. -/
def flashBuf : List Nat := vistaSig ++ flashTail

/-- The record the carver outputs for `flashBuf`. -/
def expectedFlashRecord : Record :=
  [("input_file_path", Value.vStr "f"), ("offset", Value.vNat 0),
   ("record_type", Value.vStr "Vista"),
   ("last_updated", Value.vNone), ("last_joined_sccm", Value.vNone),
   ("file_size", Value.vNat 1366528), ("launch_count", Value.vNat 64),
   ("product_language", Value.vNat 1033),
   ("folder_path", Value.vStr flashFolder),
   ("explorer_filename", Value.vStr flashName),
   ("last_username", Value.vNone), ("original_filename", Value.vNone),
   ("file_version", Value.vNone), ("product_name", Value.vNone),
   ("product_version", Value.vNone), ("company_name", Value.vNone),
   ("file_description", Value.vNone), ("last_used_time", Value.vNone),
   ("product_code", Value.vNone), ("additional_product_codes", Value.vNone),
   ("msi_display_name", Value.vNone), ("msi_publisher", Value.vNone),
   ("msi_version", Value.vNone), ("software_properties_hash", Value.vNone),
   ("file_properties_hash", Value.vNone),
   ("full_path",
    Value.vStr "C:\\Windows\\SysWOW64\\Macromed\\Flash\\FlashUtil32_29_0_0_140_Plugin.exe"),
   ("file_extension", Value.vStr "exe")]

end CcmRua

namespace CcmRua

/-! ### Helper lemmas -/

theorem getD_lt_256 (buf : List Nat) (hb : ∀ b ∈ buf, b < 256) (i : Nat) :
    buf.getD i 0 < 256 := by
  rcases h : buf[i]? with _ | b
  · simp [List.getD, h]
  · have hm : b ∈ buf := by
      obtain ⟨hlt, heq⟩ := List.getElem?_eq_some.mp h
      exact heq ▸ List.getElem_mem hlt
    simpa [List.getD, h] using hb b hm

theorem readLE_lt (buf : List Nat) (hb : ∀ b ∈ buf, b < 256) :
    ∀ (n : Nat) (pos : Nat), readLE buf pos n < 256 ^ n
  | 0, _ => by simp [readLE]
  | n + 1, pos => by
    have h1 := getD_lt_256 buf hb pos
    have h2 := readLE_lt buf hb n (pos + 1)
    have h3 : (256 : Nat) ^ (n + 1) = 256 * 256 ^ n := by ring
    simp only [readLE, h3]
    omega

theorem getk_setk_self (r : Record) (k : String) (v : Value) :
    getk (setk r k v) k = some v := by
  induction r with
  | nil => simp [getk, setk]
  | cons hd tl ih =>
    obtain ⟨k', v'⟩ := hd
    by_cases h : k' = k <;> simp [getk, setk, h, ih]

theorem getk_setk_of_ne (r : Record) {k n : String} (h : k ≠ n) (v : Value) :
    getk (setk r k v) n = getk r n := by
  induction r with
  | nil => simp [getk, setk, h]
  | cons hd tl ih =>
    obtain ⟨k', v'⟩ := hd
    by_cases h1 : k' = k
    · subst h1
      simp [getk, setk, h]
    · by_cases h2 : k' = n
      · subst h2
        simp [getk, setk, h1]
      · simp [getk, setk, h1, h2, ih]

theorem isSome_getk_setk (r : Record) (k n : String) (v : Value)
    (h : (getk r n).isSome) : (getk (setk r k v) n).isSome := by
  by_cases hk : k = n
  · subst hk; simp [getk_setk_self]
  · rwa [getk_setk_of_ne r hk]

theorem read_cim_snd_shape (blob : List Nat) (start : Nat) (endIdx : Int)
    (fp : String) (off : Nat) :
    (read_cim_encoded_string blob start endIdx fp off).2 = none ∨
    ∃ fl, (read_cim_encoded_string blob start endIdx fp off).2 =
      some (Diag.badFlag fl off fp) := by
  unfold read_cim_encoded_string
  by_cases h1 : endIdx - (start : Int) = 2
  · simp [h1]
  · by_cases h2 : blob.length < start
    · simp [h1, h2]
    · by_cases h3 : pySliceInt blob (start : Int) ((start : Int) + 1) ≠ [0] ∧
          pySliceInt blob (start : Int) ((start : Int) + 1) ≠ [1]
      · simp [h1, h2, h3]
      · by_cases h4 : pySliceInt blob ((start : Int) + 1) ((start : Int) + 2) = [] <;>
          simp [h1, h2, h3, h4]

theorem decodeFields_diags_badFlag (blob : List Nat) (fp : String) (off : Nat) :
    ∀ (rs : List (String × Nat × Int)) (r : Record) (d : Diag),
      d ∈ (decodeFields blob fp off rs r).2 → ∃ fl, d = Diag.badFlag fl off fp
  | [], r, d => by simp [decodeFields]
  | (name, start, endIdx) :: rest, r, d => by
    intro hd
    simp only [decodeFields, List.mem_append] at hd
    rcases hd with hd | hd
    · rcases read_cim_snd_shape blob start endIdx fp off with hs | ⟨fl, hs⟩
      · rw [hs] at hd; simp at hd
      · rw [hs] at hd; simp at hd; exact ⟨fl, hd⟩
    · exact decodeFields_diags_badFlag blob fp off rest _ d hd

theorem decodeFields_isSome_preserved (blob : List Nat) (fp : String) (off : Nat) :
    ∀ (rs : List (String × Nat × Int)) (r : Record) (n : String),
      (getk r n).isSome → (getk (decodeFields blob fp off rs r).1 n).isSome
  | [], r, n => by simp [decodeFields]
  | (name, start, endIdx) :: rest, r, n => by
    intro h
    simp only [decodeFields]
    exact decodeFields_isSome_preserved blob fp off rest _ n (isSome_getk_setk _ _ _ _ h)

theorem decodeFields_isSome_mem (blob : List Nat) (fp : String) (off : Nat) :
    ∀ (rs : List (String × Nat × Int)) (r : Record) (n : String),
      n ∈ rs.map (fun x => x.1) → (getk (decodeFields blob fp off rs r).1 n).isSome
  | [], r, n => by simp
  | (name, start, endIdx) :: rest, r, n => by
    intro hmem
    simp only [List.map_cons, List.mem_cons] at hmem
    simp only [decodeFields]
    rcases hmem with rfl | hmem
    · refine decodeFields_isSome_preserved blob fp off rest _ n ?_
      simp [getk_setk_self]
    · exact decodeFields_isSome_mem blob fp off rest _ n hmem

theorem mkRanges_map_fst (ps : Int) :
    ∀ l : List (String × Nat), (mkRanges ps l).map (fun x => x.1) = l.map (fun x => x.1)
  | [] => by simp [mkRanges]
  | [(n, o)] => by simp [mkRanges]
  | (n, o) :: (m, o2) :: rest => by
    simp only [mkRanges, List.map_cons]
    rw [mkRanges_map_fst ps ((m, o2) :: rest)]
    simp

theorem mkRanges_length (ps : Int) :
    ∀ l : List (String × Nat), (mkRanges ps l).length = l.length
  | [] => by simp [mkRanges]
  | [(n, o)] => by simp [mkRanges]
  | (n, o) :: (m, o2) :: rest => by
    simp only [mkRanges, List.length_cons]
    rw [mkRanges_length ps ((m, o2) :: rest)]
    simp

theorem mkRanges_chain (ps : Int) :
    ∀ l : List (String × Nat),
      List.Chain' (fun a b : String × Nat × Int => a.2.2 = (b.2.1 : Int)) (mkRanges ps l)
  | [] => by simp [mkRanges]
  | [(n, o)] => by simp [mkRanges]
  | (n, o) :: (m, o2) :: rest => by
    have ih := mkRanges_chain ps ((m, o2) :: rest)
    have hhead : ∀ y ∈ (mkRanges ps ((m, o2) :: rest)).head?,
        ((o2 : Int) = y.2.1) := by
      cases rest with
      | nil => simp [mkRanges]
      | cons hd2 tl2 =>
        obtain ⟨m2, o3⟩ := hd2
        simp [mkRanges]
    rw [show mkRanges ps ((n, o) :: (m, o2) :: rest) =
        (n, o, (o2 : Int)) :: mkRanges ps ((m, o2) :: rest) from rfl]
    exact List.chain'_cons'.mpr ⟨hhead, ih⟩

theorem mkRanges_map_end_getLast (ps : Int) :
    ∀ l : List (String × Nat), l ≠ [] →
      ((mkRanges ps l).map (fun x => x.2.2)).getLast? = some ps
  | [], h => absurd rfl h
  | [(n, o)], _ => by simp [mkRanges]
  | (n, o) :: (m, o2) :: rest, _ => by
    have ih := mkRanges_map_end_getLast ps ((m, o2) :: rest) (by simp)
    cases rest with
    | nil => simp [mkRanges]
    | cons hd2 tl2 =>
      obtain ⟨m2, o3⟩ := hd2
      rw [show mkRanges ps ((n, o) :: (m, o2) :: (m2, o3) :: tl2) =
          (n, o, (o2 : Int)) :: mkRanges ps ((m, o2) :: (m2, o3) :: tl2) from rfl]
      rw [show mkRanges ps ((m, o2) :: (m2, o3) :: tl2) =
          (m, o2, (o3 : Int)) :: mkRanges ps ((m2, o3) :: tl2) from rfl] at ih ⊢
      rw [List.map_cons, List.map_cons, List.getLast?_cons_cons]
      rw [List.map_cons] at ih
      exact ih

theorem sortedOffsetPairs_length (t : OffsetsTable) :
    (sortedOffsetPairs t).length = 17 :=
  (List.perm_insertionSort _ _).length_eq.trans rfl

theorem sortedOffsetPairs_ne_nil (t : OffsetsTable) : sortedOffsetPairs t ≠ [] := by
  intro h
  have := congrArg List.length h
  rw [sortedOffsetPairs_length] at this
  simp at this

theorem sortedOffsetPairs_sorted (t : OffsetsTable) :
    (sortedOffsetPairs t).Sorted (fun a b => a.2 ≤ b.2) := by
  haveI : IsTotal (String × Nat) (fun a b => a.2 ≤ b.2) :=
    ⟨fun a b => Nat.le_total a.2 b.2⟩
  haveI : IsTrans (String × Nat) (fun a b => a.2 ≤ b.2) :=
    ⟨fun _ _ _ h1 h2 => Nat.le_trans h1 h2⟩
  exact List.sorted_insertionSort _ _

theorem mem_map_fst_sortedOffsetPairs (t : OffsetsTable) (n : String) :
    n ∈ (sortedOffsetPairs t).map (fun x => x.1) ↔
      n ∈ (stringOffsetPairs t).map (fun x => x.1) :=
  ((List.perm_insertionSort _ _).map (fun x : String × Nat => x.1)).mem_iff

theorem parse_fields_isSome_preserved (r : Record) (n : String)
    (h : (getk r n).isSome) : (getk (parse_fields r) n).isSome := by
  unfold parse_fields
  exact isSome_getk_setk _ _ _ _ (isSome_getk_setk _ _ _ _
    (isSome_getk_setk _ _ _ _ (isSome_getk_setk _ _ _ _ h)))

theorem parse_fields_full_path_isSome (r : Record) :
    (getk (parse_fields r) "full_path").isSome := by
  unfold parse_fields
  exact isSome_getk_setk _ _ _ _ (by simp [getk_setk_self])

theorem parse_fields_file_extension_isSome (r : Record) :
    (getk (parse_fields r) "file_extension").isSome := by
  unfold parse_fields
  simp [getk_setk_self]

theorem string_length_pos_of_data_ne_nil {s : String} (h : s.data ≠ []) :
    0 < s.length := by
  cases s with
  | mk l => simpa [String.length] using List.length_pos.mpr h

theorem string_ne_empty_of_length_pos {s : String} (h : 0 < s.length) : s ≠ "" := by
  intro he
  rw [he] at h
  simp at h

theorem mkFullPath_eq (folder name : String) :
    mkFullPath folder name =
      some (folder ++ (if endsWithBackslash folder then "" else "\\") ++ name) := by
  unfold mkFullPath
  have hne : folder ++ (if endsWithBackslash folder then "" else "\\") ++ name ≠ "" := by
    apply string_ne_empty_of_length_pos
    rw [String.length_append, String.length_append]
    by_cases hb : endsWithBackslash folder = true
    · have hb' : folder.data.getLast? = some '\\' := of_decide_eq_true hb
      have hd : folder.data ≠ [] := by
        intro hnil
        rw [hnil] at hb'
        simp at hb'
      have := string_length_pos_of_data_ne_nil hd
      omega
    · rw [if_neg hb]
      have h1 : ("\\" : String).length = 1 := by decide
      omega
  rw [if_neg hne]

end CcmRua

namespace CcmRua

theorem pySliceInt_singleton (l : List Nat) (i : Nat) (h : i < l.length) :
    pySliceInt l (i : Int) ((i : Int) + 1) = [l.getD i 0] := by
  have h0 : ¬ ((i : Int) < 0) := by omega
  have h1 : ¬ ((i : Int) + 1 < 0) := by omega
  have hia : (i : Int) ≤ (l.length : Int) := by exact_mod_cast h.le
  have hib : (i : Int) + 1 ≤ (l.length : Int) := by exact_mod_cast h
  simp only [pySliceInt, if_neg h0, if_neg h1, min_eq_left hia, min_eq_left hib]
  have h2 : ((i : Int) + 1).toNat - ((i : Int)).toNat = 1 := by omega
  have h3 : ((i : Int)).toNat = i := by omega
  rw [h2, h3]
  have hd : l.drop i = l[i] :: l.drop (i + 1) := List.drop_eq_getElem_cons h
  have hg : l.getD i 0 = l[i] := by simp [List.getD, List.getElem?_eq_getElem h]
  rw [hd, hg]
  rfl

/-! ### Claim C1 -/

/-- C1 counterexample: the offset-table struct declares twenty 4-byte
little-endian fields, of which seventeen are string offsets — not nineteen
and sixteen as the claim states — and the signed 16-bit properties_size is
read at byte 85 of the table (after twenty integers and 4+1 padding bytes),
not at byte 82 (after nineteen integers and 5+1 padding bytes): changing
byte 82 of an 89-byte table cannot influence the parse, while changing byte
85 changes the decoded properties_size. -/
theorem C1_counterexample :
    ¬ (ruaOffsetsFieldNames.length = 19 ∧
        (ruaOffsetsFieldNames.filter
          (fun n => decide (n ∉ RUA_PROPERTY_VALUE_FIELDS))).length = 16) ∧
    parseRuaOffsets ((List.replicate 89 0).set 82 1) 0 =
      parseRuaOffsets (List.replicate 89 0) 0 ∧
    (parseRuaOffsets ((List.replicate 89 0).set 85 1) 0).map OffsetsTable.properties_size =
      some 1 ∧
    (parseRuaOffsets (List.replicate 89 0) 0).map OffsetsTable.properties_size =
      some 0 := by
  decide

/-- C1 (amended): the offset-table decoder reads exactly 20 sequential 4-byte
little-endian unsigned integers, of which exactly 17 are byte offsets into
the properties blob and 3 (file_size, launch_count, product_language) are
inline scalar values removed from the offset set before any boundary
computation; after the 20 integers it skips 4 padding bytes, skips 1 padding
byte, reads one 2-byte signed integer properties_size, and skips 2 trailing
padding bytes (89 bytes in total, the exact amount whose availability
decides success). -/
theorem C1_amended :
    ruaOffsetsFieldNames.length = 20 ∧
    RUA_PROPERTY_VALUE_FIELDS.length = 3 ∧
    RUA_RECORD_STRINGS.length = 17 ∧
    (∀ t : OffsetsTable, (stringOffsetPairs t).map (fun x => x.1) =
      ruaOffsetsFieldNames.filter (fun n => decide (n ∉ RUA_PROPERTY_VALUE_FIELDS))) ∧
    (∀ (buf : List Nat) (pos : Nat),
      (parseRuaOffsets buf pos).isSome ↔ pos + 89 ≤ buf.length) ∧
    (∀ (buf : List Nat) (pos : Nat) (t : OffsetsTable), parseRuaOffsets buf pos = some t →
      t.folder_path = readLE buf pos 4 ∧
      t.explorer_filename = readLE buf (pos + 4) 4 ∧
      t.last_username = readLE buf (pos + 8) 4 ∧
      t.original_filename = readLE buf (pos + 12) 4 ∧
      t.file_version = readLE buf (pos + 16) 4 ∧
      t.file_size = readLE buf (pos + 20) 4 ∧
      t.product_name = readLE buf (pos + 24) 4 ∧
      t.product_version = readLE buf (pos + 28) 4 ∧
      t.company_name = readLE buf (pos + 32) 4 ∧
      t.product_language = readLE buf (pos + 36) 4 ∧
      t.file_description = readLE buf (pos + 40) 4 ∧
      t.launch_count = readLE buf (pos + 44) 4 ∧
      t.last_used_time = readLE buf (pos + 48) 4 ∧
      t.product_code = readLE buf (pos + 52) 4 ∧
      t.additional_product_codes = readLE buf (pos + 56) 4 ∧
      t.msi_display_name = readLE buf (pos + 60) 4 ∧
      t.msi_publisher = readLE buf (pos + 64) 4 ∧
      t.msi_version = readLE buf (pos + 68) 4 ∧
      t.software_properties_hash = readLE buf (pos + 72) 4 ∧
      t.file_properties_hash = readLE buf (pos + 76) 4 ∧
      t.properties_size = toI16 (readLE buf (pos + 85) 2)) := by
  refine ⟨by decide, by decide, by decide, fun t => rfl, ?_, ?_⟩
  · intro buf pos
    unfold parseRuaOffsets
    by_cases h : pos + 89 ≤ buf.length <;> simp [h]
  · intro buf pos t ht
    unfold parseRuaOffsets at ht
    by_cases h : pos + 89 ≤ buf.length
    · rw [if_pos h] at ht
      injection ht with ht
      subst ht
      repeat' apply And.intro
      all_goals rfl
    · rw [if_neg h] at ht
      exact absurd ht (by simp)

/-- C1 witness: the amended layout facts instantiated on the concrete
well-formed record buffer. -/
theorem C1_amended_witness :
    (parseRuaOffsets goodRecBytes 158).isSome ∧
    goodTable.folder_path = readLE goodRecBytes 158 4 :=
  ⟨(C1_amended.2.2.2.2.1 goodRecBytes 158).mpr (by decide),
   (C1_amended.2.2.2.2.2 goodRecBytes 158 goodTable (by decide)).1⟩

/-! ### Claim C3 -/

/-- C3 counterexample: a field range of length 1 — strictly less than 2 —
whose flag byte is 0x00 and whose next byte exists decodes to the empty
string, not to null. -/
theorem C3_counterexample :
    read_cim_encoded_string [0, 5] 0 1 "f" 0 = (some "", none) ∧
    (1 : Int) - (0 : Int) < 2 ∧
    (read_cim_encoded_string [0, 5] 0 1 "f" 0).1 ≠ none := by
  decide

/-- C3 (amended): a field range of length exactly 2, and a range starting
strictly beyond the end of the properties blob, both decode to null; a range
of length strictly less than 2 does not in general decode to null (it can
decode to the empty string, as the counterexample shows). -/
theorem C3_amended (blob : List Nat) (start : Nat) (endIdx : Int)
    (fp : String) (off : Nat)
    (h : endIdx - (start : Int) = 2 ∨ blob.length < start) :
    (read_cim_encoded_string blob start endIdx fp off).1 = none := by
  unfold read_cim_encoded_string
  rcases h with h | h
  · rw [if_pos h]
  · by_cases h1 : endIdx - (start : Int) = 2
    · rw [if_pos h1]
    · rw [if_neg h1, if_pos h]

/-- C3 witness: the amended statement instantiated on a length-2 range and
on a start beyond the blob end. -/
theorem C3_amended_witness :
    (read_cim_encoded_string [0, 0, 0] 0 2 "f" 0).1 = none ∧
    (read_cim_encoded_string [0, 97, 0] 5 3 "f" 0).1 = none :=
  ⟨C3_amended [0, 0, 0] 0 2 "f" 0 (Or.inl (by decide)),
   C3_amended [0, 97, 0] 5 3 "f" 0 (Or.inr (by decide))⟩

/-! ### Claim C4 -/

/-- C4 counterexample: a field whose flag byte is 7 — neither 0x00 nor 0x01 —
but whose range length is exactly 2 decodes to null with NO diagnostic: the
length-2 check precedes the flag check. -/
theorem C4_counterexample :
    read_cim_encoded_string [7, 0] 0 2 "f" 0 = (none, none) ∧
    [7, 0].getD 0 0 = 7 := by
  decide

/-- C4 (amended): whenever byte 0 of the field's range exists and is neither
0x00 nor 0x01 the field decodes to null and the decoder returns normally
(the embedding is total, so nothing is raised and the record continues); the
diagnostic carrying the flag value, the file offset and the file identity is
emitted if and only if the range length is not exactly 2. -/
theorem C4_amended (blob : List Nat) (start : Nat) (endIdx : Int)
    (fp : String) (off : Nat) (f : Nat)
    (hf : blob[start]? = some f) (h0 : f ≠ 0) (h1 : f ≠ 1) :
    (read_cim_encoded_string blob start endIdx fp off).1 = none ∧
    (read_cim_encoded_string blob start endIdx fp off).2 =
      (if endIdx - (start : Int) = 2 then none
       else some (Diag.badFlag [f] off fp)) := by
  obtain ⟨hlt, hstart⟩ := List.getElem?_eq_some.mp hf
  have hgd : blob.getD start 0 = f := by simp [List.getD, hf]
  have hslice : pySliceInt blob (start : Int) ((start : Int) + 1) = [f] := by
    rw [pySliceInt_singleton blob start hlt, hgd]
  have hnotlt : ¬ (blob.length < start) := by omega
  have hmain : read_cim_encoded_string blob start endIdx fp off =
      (none, if endIdx - (start : Int) = 2 then none
             else some (Diag.badFlag [f] off fp)) := by
    by_cases hc : endIdx - (start : Int) = 2
    · simp [read_cim_encoded_string, hc]
    · simp [read_cim_encoded_string, hc, hnotlt, hslice, h0, h1]
  rw [hmain]
  exact ⟨rfl, rfl⟩

/-- C4 witness: the amended statement instantiated on a concrete bad flag. -/
theorem C4_amended_witness :
    (read_cim_encoded_string [7, 9, 9] 0 3 "f" 0).1 = none ∧
    (read_cim_encoded_string [7, 9, 9] 0 3 "f" 0).2 =
      (if (3 : Int) - (0 : Int) = 2 then none
       else some (Diag.badFlag [7] 0 "f")) :=
  C4_amended [7, 9, 9] 0 3 "f" 0 7 (by decide) (by decide) (by decide)

/-! ### Claim C5 -/

/-- C5: a tick count of zero decodes to null; a conversion that overflows
the representable datetime range decodes to null (nothing is raised: the
embedding is total); any other 64-bit tick count decodes to the microsecond
count obtained by round-half-even division of the ticks by 10, which is
within half a microsecond (5 ticks) of the exact value and lands on an even
microsecond on exact ties. -/
theorem C5_timestamps (count : Nat) (_hc : count < 2 ^ 64) :
    (count = 0 → datetime_from_windows_filetime count = none) ∧
    (count ≠ 0 →
      (datetime_from_windows_filetime count = none ↔
        usMax < quantizeHalfEvenDiv10 count)) ∧
    (count ≠ 0 → quantizeHalfEvenDiv10 count ≤ usMax →
      datetime_from_windows_filetime count = some (quantizeHalfEvenDiv10 count)) ∧
    ((quantizeHalfEvenDiv10 count : Int) * 10 - (count : Int) ≤ 5 ∧
     (count : Int) - (quantizeHalfEvenDiv10 count : Int) * 10 ≤ 5) ∧
    (((quantizeHalfEvenDiv10 count : Int) * 10 - (count : Int) = 5 ∨
      (count : Int) - (quantizeHalfEvenDiv10 count : Int) * 10 = 5) →
      quantizeHalfEvenDiv10 count % 2 = 0) := by
  refine ⟨?_, ?_, ?_, ?_, ?_⟩
  · intro h
    simp [datetime_from_windows_filetime, h]
  · intro h
    simp only [datetime_from_windows_filetime, if_neg h]
    by_cases h2 : usMax < quantizeHalfEvenDiv10 count <;> simp [h2]
  · intro h h2
    simp only [datetime_from_windows_filetime, if_neg h]
    rw [if_neg (by omega)]
  · simp only [quantizeHalfEvenDiv10]
    split_ifs <;> omega
  · simp only [quantizeHalfEvenDiv10]
    split_ifs <;> omega

/-- C5 witness: tick count 25 is nonzero and does not overflow, and decodes
to 2 microseconds (round-half-even of 2.5); tick count 0 decodes to null. -/
theorem C5_timestamps_witness :
    datetime_from_windows_filetime 25 = some (quantizeHalfEvenDiv10 25) ∧
    datetime_from_windows_filetime 0 = none :=
  ⟨(C5_timestamps 25 (by decide)).2.2.1 (by decide) (by decide),
   (C5_timestamps 0 (by decide)).1 rfl⟩

/-! ### Claim C10 -/

/-- C10 counterexample: a record whose properties_size decodes to -256 passes
-256 as the blob read length, and `BufferedReader.read(-256)` raises an
uncaught ValueError — the record is aborted and the scan dies; no blob is
read at all, so the decode does not proceed with a blob "not limited to
properties_size bytes" as the claim states. -/
theorem C10_counterexample :
    (parseRuaOffsets c9CrashBuf 158).map OffsetsTable.properties_size = some (-256) ∧
    fileRead c9CrashBuf 247 (min (-256 : Int) ((RUA_MAX_RECORD_SIZE : Nat) : Int)) = none ∧
    process_hit c9CrashBuf 0 128 "f" = none ∧
    runParse c9CrashBuf "f" = ([], [], true) := by
  decide

/-- C10 (amended): properties_size is decoded as a signed 16-bit integer, so
its value is at most 32767 and the clamp min(properties_size, 65536) never
reduces the requested length; for every negative properties_size the
negative value itself is passed as the blob read length, but only the value
-1 makes the read return everything to end-of-file — every read length below
-1 raises an uncaught ValueError, aborting the record and the scan, so no
blob is read at all in that case. -/
theorem C10_amended (buf : List Nat) (pos : Nat) (t : OffsetsTable)
    (hb : ∀ b ∈ buf, b < 256)
    (ht : parseRuaOffsets buf pos = some t) :
    t.properties_size ≤ 32767 ∧
    min t.properties_size ((RUA_MAX_RECORD_SIZE : Nat) : Int) = t.properties_size ∧
    (t.properties_size = -1 → ∀ (buf2 : List Nat) (pos2 : Nat),
      fileRead buf2 pos2 (min t.properties_size ((RUA_MAX_RECORD_SIZE : Nat) : Int)) =
        some (buf2.drop pos2)) ∧
    (t.properties_size < -1 → ∀ (buf2 : List Nat) (pos2 : Nat),
      fileRead buf2 pos2 (min t.properties_size ((RUA_MAX_RECORD_SIZE : Nat) : Int)) =
        none) := by
  have hps : t.properties_size = toI16 (readLE buf (pos + 85) 2) := by
    unfold parseRuaOffsets at ht
    by_cases h : pos + 89 ≤ buf.length
    · rw [if_pos h] at ht
      injection ht with ht
      subst ht
      rfl
    · rw [if_neg h] at ht
      exact absurd ht (by simp)
  have h65 : readLE buf (pos + 85) 2 < 65536 := by
    have h := readLE_lt buf hb 2 (pos + 85)
    have h2 : (256 : Nat) ^ 2 = 65536 := by norm_num
    omega
  have hle : t.properties_size ≤ 32767 := by
    rw [hps]
    unfold toI16
    split_ifs <;> omega
  have hmax : ((RUA_MAX_RECORD_SIZE : Nat) : Int) = 65536 := by decide
  have hmin : min t.properties_size ((RUA_MAX_RECORD_SIZE : Nat) : Int) =
      t.properties_size := by
    rw [hmax]
    exact min_eq_left (by omega)
  refine ⟨hle, hmin, ?_, ?_⟩
  · intro hneg buf2 pos2
    rw [hmin, hneg]
    unfold fileRead
    rw [if_neg (by omega), if_pos rfl]
  · intro hneg buf2 pos2
    rw [hmin]
    unfold fileRead
    rw [if_pos hneg]

/-- C10 witness: the amendment instantiated on concrete tables with
properties_size -256 (the read raises) and -1 (the read returns everything
to end-of-file). -/
theorem C10_amended_witness :
    c10Table.properties_size ≤ 32767 ∧
    min c10Table.properties_size ((RUA_MAX_RECORD_SIZE : Nat) : Int) =
      c10Table.properties_size ∧
    fileRead [0, 1, 2] 0
      (min c10Table.properties_size ((RUA_MAX_RECORD_SIZE : Nat) : Int)) = none ∧
    fileRead [0, 1, 2] 0
      (min c10NegOneTable.properties_size ((RUA_MAX_RECORD_SIZE : Nat) : Int)) =
      some [0, 1, 2] :=
  (fun h h2 => ⟨h.1, h.2.1, h.2.2.2 (by decide) [0, 1, 2] 0,
      h2.2.2.1 (by decide) [0, 1, 2] 0⟩)
    (C10_amended c10Buf 0 c10Table (by decide) (by decide))
    (C10_amended c10NegOneBuf 0 c10NegOneTable (by decide) (by decide))

end CcmRua

namespace CcmRua

/-! ### Claim C2 -/

/-- C2 counterexample: a buffer holding one signature match whose offset
table is truncated still produces one (partial) output record for that
match — not zero output records as the claim states. -/
theorem C2_counterexample :
    (runParse (vistaSig ++ truncTail) "f").1 = [expectedTruncRecord 0] ∧
    (runParse (vistaSig ++ truncTail) "f").1.length ≠ 0 := by
  decide

/-- C2 (amended): when a match's offset table is truncated, the record's
property decoding is abandoned — the emitted record is partial, with no
string field and no full_path assigned — and a structural diagnostic
carrying the hit offset and file identity is reported; scanning is
unaffected for other matches, so a well-formed record elsewhere in the same
buffer is still found and decoded correctly.  (A well-formed record cannot
follow a truncated one, since truncation means fewer bytes remain than the
table needs; the concrete buffer therefore places the well-formed record
first and the truncated one at end-of-buffer.) -/
theorem C2_amended :
    (∀ (buf : List Nat) (hashStart : Nat) (fp : String) (hdr : RuaHeader),
      parseRuaHeader buf (hashStart + 128) = some hdr →
      parseRuaOffsets buf (hashStart + 128 + 30) = none →
      ∃ r ds, process_hit buf hashStart 128 fp = some (r, ds) ∧
        (∀ n ∈ RUA_RECORD_STRINGS, getk r n = none) ∧
        getk r "full_path" = none ∧
        Diag.offsetsFail hashStart fp ∈ ds) ∧
    runParse c2Buf "f" =
      ([expectedGoodRecord 0, expectedTruncRecord 298],
       [Diag.offsetsFail 298 "f"], false) := by
  constructor
  · intro buf hashStart fp hdr hh ht
    refine ⟨[("input_file_path", Value.vStr fp), ("offset", Value.vNat hashStart),
        ("record_type", Value.vStr "Vista"),
        ("last_updated", Value.vNat hdr.last_updated),
        ("last_joined_sccm", Value.vNat hdr.last_joined_sccm)],
      (if RUA_MAX_RECORD_SIZE < hdr.record_size then
        [Diag.oversize hdr.record_size RUA_MAX_RECORD_SIZE hashStart fp]
       else []) ++ [Diag.offsetsFail hashStart fp], ?_, ?_, ?_, ?_⟩
    · unfold process_hit
      simp only [RECENTLY_USED_APPS_TYPES, reduceIte, hh, ht]
      rfl
    · intro n hn
      fin_cases hn <;> rfl
    · rfl
    · exact List.mem_append_right _ (by simp)
  · decide

/-- C2 witness: the amended per-hit statement instantiated on the concrete
truncated buffer. -/
theorem C2_amended_witness :
    ∃ r ds, process_hit (vistaSig ++ truncTail) 0 128 "f" = some (r, ds) ∧
      (∀ n ∈ RUA_RECORD_STRINGS, getk r n = none) ∧
      getk r "full_path" = none ∧
      Diag.offsetsFail 0 "f" ∈ ds :=
  C2_amended.1 (vistaSig ++ truncTail) 0 "f"
    { last_updated := 0, last_joined_sccm := 0, record_size := 0 }
    (by decide) (by decide)

/-! ### Claim C6 -/

/-- C6 counterexample: a decoded record has seventeen (not sixteen) sorted
string-field offsets, and they need not strictly increase: the buffer c6Buf
decodes to one complete record whose sorted offsets begin 0, 0. -/
theorem C6_counterexample :
    (parseRuaOffsets c6Buf 158).map sortedStringOffsets =
      some [0, 0, 3, 6, 9, 12, 15, 18, 21, 24, 27, 30, 33, 36, 39, 42, 45] ∧
    ¬ (([0, 0, 3, 6, 9, 12, 15, 18, 21, 24, 27, 30, 33, 36, 39, 42, 45] :
        List Nat).Sorted (· < ·)) ∧
    ([0, 0, 3, 6, 9, 12, 15, 18, 21, 24, 27, 30, 33, 36, 39, 42, 45] :
        List Nat).length ≠ 16 ∧
    (runParse c6Buf "f").2.2 = false ∧
    (runParse c6Buf "f").1.length = 1 := by
  decide

/-- C6 (amended): for every decoded offset table the seventeen sorted
string-field offsets are non-decreasing (not necessarily strictly), and the
derived field ranges are contiguous: each field's range ends where the next
field's range begins, and the last field's range ends at properties_size. -/
theorem C6_amended (t : OffsetsTable) :
    (sortedStringOffsets t).length = 17 ∧
    (sortedStringOffsets t).Sorted (· ≤ ·) ∧
    List.Chain' (fun a b : String × Nat × Int => a.2.2 = (b.2.1 : Int)) (fieldRanges t) ∧
    ((fieldRanges t).map (fun x => x.2.2)).getLast? = some t.properties_size := by
  refine ⟨?_, ?_, mkRanges_chain _ _,
    mkRanges_map_end_getLast _ _ (sortedOffsetPairs_ne_nil t)⟩
  · unfold sortedStringOffsets
    rw [List.length_map]
    exact sortedOffsetPairs_length t
  · unfold sortedStringOffsets
    exact List.Pairwise.map _ (fun a b hab => hab) (sortedOffsetPairs_sorted t)

/-! ### Claim C7 -/

/-- C7: for every record, full_path is folder_path, then a backslash
separator inserted only when folder_path does not already end with one, then
explorer_filename; the null-if-empty fallback never fires because that
concatenation is never empty.  On the concrete end-to-end Flash buffer the
decoded record carries record_type Vista, the claimed full_path, and
file_extension exe. -/
theorem C7_full_path :
    (∀ folder name : String, mkFullPath folder name =
      some (folder ++ (if endsWithBackslash folder then "" else "\\") ++ name)) ∧
    runParse flashBuf "f" = ([expectedFlashRecord], [], false) :=
  ⟨mkFullPath_eq, by decide⟩

/-! ### Claim C8 -/

/-- C8: the scanner derives record_type from the match length alone through
RECENTLY_USED_APPS_TYPES (128 to Vista, 64 to XP), and a buffer containing
no signature occurrence yields the empty sequence, not an error; but the XP
alternative of the compiled pattern is 65 bytes long — the NUL byte from
UTF-16LE-encoding the '|' separator plus the 64 hash bytes — so an XP hit
has match length 65, which is not a key of the map: processing it raises
KeyError and aborts the scan (emitting no record) instead of yielding an XP
record of length 64 as the map intends. -/
theorem C8_divergence :
    RECENTLY_USED_APPS_TYPES 128 = some "Vista" ∧
    RECENTLY_USED_APPS_TYPES 64 = some "XP" ∧
    runParse (List.replicate 16 0) "f" = ([], [], false) ∧
    xpAltSig.length = 65 ∧
    RECENTLY_USED_APPS_TYPES 65 = none ∧
    findMatches xpAltSig = [(0, 65)] ∧
    runParse xpAltSig "f" = ([], [], true) := by
  decide

/-! ### Claim C9 -/

/-- C9 counterexample: a record whose decoded record_size is 65537 (above the
safety maximum) but whose properties_size is -256 prints the oversize
warning and is then aborted by the uncaught ValueError of the blob read —
decoding does NOT continue to completion: no record is emitted and the scan
dies. -/
theorem C9_counterexample :
    (parseRuaHeader c9CrashBuf 128).map RuaHeader.record_size = some 65537 ∧
    RUA_MAX_RECORD_SIZE < 65537 ∧
    process_hit c9CrashBuf 0 128 "f" = none ∧
    runParse c9CrashBuf "f" = ([], [], true) := by
  decide

/-- C9 (amended): whenever the header decodes, the oversize diagnostic (with
declared size, safety maximum, hit offset and file identity) is emitted
exactly when record_size exceeds 65536 and decoding proceeds past the check:
whenever the remaining stages succeed — the offset table decodes and the
blob read does not raise — the record still decodes to completion with every
string field plus full_path and file_extension assigned.  The oversized
record_size itself is never what aborts a record: the only post-header
abort, the ValueError on a blob read length below -1, is triggered by
properties_size alone, with no condition on record_size. -/
theorem C9_amended :
    (∀ (buf : List Nat) (hashStart : Nat) (fp : String) (hdr : RuaHeader)
        (tbl : OffsetsTable) (blob : List Nat),
      parseRuaHeader buf (hashStart + 128) = some hdr →
      parseRuaOffsets buf (hashStart + 128 + 30) = some tbl →
      fileRead buf (hashStart + 128 + 119)
          (min tbl.properties_size ((RUA_MAX_RECORD_SIZE : Nat) : Int)) = some blob →
      ∃ r ds, process_hit buf hashStart 128 fp = some (r, ds) ∧
        (Diag.oversize hdr.record_size RUA_MAX_RECORD_SIZE hashStart fp ∈ ds ↔
          RUA_MAX_RECORD_SIZE < hdr.record_size) ∧
        (∀ n ∈ RUA_RECORD_STRINGS, (getk r n).isSome) ∧
        (getk r "full_path").isSome ∧
        (getk r "file_extension").isSome) ∧
    (∀ (buf : List Nat) (hashStart : Nat) (fp : String) (hdr : RuaHeader)
        (tbl : OffsetsTable),
      parseRuaHeader buf (hashStart + 128) = some hdr →
      parseRuaOffsets buf (hashStart + 128 + 30) = some tbl →
      min tbl.properties_size ((RUA_MAX_RECORD_SIZE : Nat) : Int) < -1 →
      process_hit buf hashStart 128 fp = none) := by
  constructor
  · intro buf hashStart fp hdr tbl blob hh ht hb
    refine ⟨parse_fields (decodeFields blob
        fp hashStart (fieldRanges tbl)
        [("input_file_path", Value.vStr fp), ("offset", Value.vNat hashStart),
         ("record_type", Value.vStr "Vista"),
         ("last_updated", Value.vNat hdr.last_updated),
         ("last_joined_sccm", Value.vNat hdr.last_joined_sccm),
         ("file_size", Value.vNat tbl.file_size),
         ("launch_count", Value.vNat tbl.launch_count),
         ("product_language", Value.vNat tbl.product_language)]).1,
      (if RUA_MAX_RECORD_SIZE < hdr.record_size then
        [Diag.oversize hdr.record_size RUA_MAX_RECORD_SIZE hashStart fp]
       else []) ++
      (decodeFields blob
        fp hashStart (fieldRanges tbl)
        [("input_file_path", Value.vStr fp), ("offset", Value.vNat hashStart),
         ("record_type", Value.vStr "Vista"),
         ("last_updated", Value.vNat hdr.last_updated),
         ("last_joined_sccm", Value.vNat hdr.last_joined_sccm),
         ("file_size", Value.vNat tbl.file_size),
         ("launch_count", Value.vNat tbl.launch_count),
         ("product_language", Value.vNat tbl.product_language)]).2,
      ?_, ?_, ?_, ?_, ?_⟩
    · unfold process_hit
      simp only [RECENTLY_USED_APPS_TYPES, reduceIte, hh, ht, hb]
      rfl
    · constructor
      · intro hmem
        rcases List.mem_append.mp hmem with hm | hm
        · by_cases hrs : RUA_MAX_RECORD_SIZE < hdr.record_size
          · exact hrs
          · rw [if_neg hrs] at hm
            simp at hm
        · obtain ⟨fl, heq⟩ := decodeFields_diags_badFlag _ _ _ _ _ _ hm
          simp at heq
      · intro hrs
        apply List.mem_append_left
        rw [if_pos hrs]
        simp
    · intro n hn
      apply parse_fields_isSome_preserved
      apply decodeFields_isSome_mem
      unfold fieldRanges
      rw [mkRanges_map_fst, mem_map_fst_sortedOffsetPairs]
      have hlit : (stringOffsetPairs tbl).map (fun x => x.1) =
        ["folder_path", "explorer_filename", "last_username", "original_filename",
         "file_version", "product_name", "product_version", "company_name",
         "file_description", "last_used_time", "product_code",
         "additional_product_codes", "msi_display_name", "msi_publisher",
         "msi_version", "software_properties_hash", "file_properties_hash"] := rfl
      rw [hlit]
      fin_cases hn <;> decide
    · exact parse_fields_full_path_isSome _
    · exact parse_fields_file_extension_isSome _
  · intro buf hashStart fp hdr tbl hh ht hlt
    have hf : fileRead buf (hashStart + 128 + 119)
        (min tbl.properties_size ((RUA_MAX_RECORD_SIZE : Nat) : Int)) = none := by
      unfold fileRead
      rw [if_pos hlt]
    unfold process_hit
    simp only [RECENTLY_USED_APPS_TYPES, reduceIte, hh, ht, hf]

/-- C9 witness: the completion half instantiated on a concrete record with
record_size 65537 (one above the maximum) and a well-formed blob, and the
abort half instantiated on the concrete crashing record. -/
theorem C9_amended_witness :
    (∃ r ds, process_hit c9Buf 0 128 "f" = some (r, ds) ∧
      (Diag.oversize c9Header.record_size RUA_MAX_RECORD_SIZE 0 "f" ∈ ds ↔
        RUA_MAX_RECORD_SIZE < c9Header.record_size) ∧
      (∀ n ∈ RUA_RECORD_STRINGS, (getk r n).isSome) ∧
      (getk r "full_path").isSome ∧
      (getk r "file_extension").isSome) ∧
    process_hit c9CrashBuf 0 128 "f" = none :=
  ⟨C9_amended.1 c9Buf 0 "f" c9Header goodTable
      ((List.replicate 17 [0, 97, 0]).flatten) (by decide) (by decide) (by decide),
   C9_amended.2 c9CrashBuf 0 "f" c9Header
     { goodTable with properties_size := -256 } (by decide) (by decide) (by decide)⟩

end CcmRua

namespace CcmRua

/-- C6 witness: the amended invariant instantiated on the concrete decoded
offset table of the well-formed record buffer. -/
theorem C6_amended_witness :
    (sortedStringOffsets goodTable).length = 17 ∧
    (sortedStringOffsets goodTable).Sorted (· ≤ ·) ∧
    List.Chain' (fun a b : String × Nat × Int => a.2.2 = (b.2.1 : Int))
      (fieldRanges goodTable) ∧
    ((fieldRanges goodTable).map (fun x => x.2.2)).getLast? =
      some goodTable.properties_size :=
  C6_amended goodTable

/-- C7 witness: the general full_path equation instantiated on the Flash
example strings. -/
theorem C7_full_path_witness :
    mkFullPath "C:\\Windows\\SysWOW64\\Macromed\\Flash\\"
        "FlashUtil32_29_0_0_140_Plugin.exe" =
      some ("C:\\Windows\\SysWOW64\\Macromed\\Flash\\" ++
        (if endsWithBackslash "C:\\Windows\\SysWOW64\\Macromed\\Flash\\" then ""
         else "\\") ++
        "FlashUtil32_29_0_0_140_Plugin.exe") :=
  C7_full_path.1 "C:\\Windows\\SysWOW64\\Macromed\\Flash\\"
    "FlashUtil32_29_0_0_140_Plugin.exe"

end CcmRua
